import Mathlib

/-!
Verification development for the Beast example WebSocket echo servers
(`examples/server.hpp`, `examples/websocket_async_echo_server.hpp`,
`examples/websocket_sync_echo_server.hpp`, `examples/websocket_echo.cpp`).

The C++ sources are shallowly embedded: each relevant member function is
translated into a pure Lean function over an explicit state, with
completion-handler callbacks turned into steps of a transition system and
error codes represented as an inductive type.
-/

namespace BeastServer

/-- A WebSocket message: its payload bytes and the binary/text flag
(`got_binary()` on the receiving side, `binary(...)` on the sending side). -/
structure Msg where
  data : List Nat
  isBinary : Bool
deriving DecidableEq, Repr

/-- A `boost::system::error_code` as observed by the echo handlers:
success, the distinguished `beast::websocket::error::closed` condition,
or any other error (carrying its numeric value). -/
inductive Ec where
  | ok : Ec
  | closed : Ec
  | err : Nat → Ec
deriving DecidableEq, Repr

/-- The result the environment supplies for one `read` / `async_read`
operation: a complete message, the `closed` condition, or another error. -/
inductive RW where
  | rdOk : Msg → RW
  | rdClosed : RW
  | rdErr : Nat → RW
deriving DecidableEq, Repr

/-- One scripted loop iteration: the read result, and the error code the
subsequent `write` / `async_write` would report (ignored unless the read
succeeded). -/
abbrev Script := List (RW × Ec)

/-- One diagnostic line as emitted by the `fail` helpers:
`"[#" << id << " " << ep << "] " << what << ": " << ec.message()`. -/
structure Diag where
  id : Nat
  ep : Nat
  what : String
  ec : Ec
deriving DecidableEq, Repr

/-- The `fail` helper shared (textually) by both handler variants:
emit the diagnostic unless the error is `websocket::error::closed`. -/
def mkFail (id ep : Nat) (what : String) (ec : Ec) : List Diag :=
  if ec = Ec.closed then [] else [⟨id, ep, what, ec⟩]

/-- The per-stream flag state of `beast::websocket::stream`:
`got_binary()` (set by a completed read) and the outgoing `binary(...)`
message flag. -/
structure WsState where
  gotBinary : Bool
  binaryFlag : Bool
deriving DecidableEq, Repr

/-- The `for(;;)` echo loop of `ws_sync_echo_port::do_connection`:
each iteration reads into a fresh buffer, returns `fail "read"` on a read
error, mirrors `ws.binary(ws.got_binary())`, writes the buffer back and
returns `fail "write"` on a write error.  Returns the messages put on the
wire and the diagnostics emitted. -/
def sync_loop (id ep : Nat) (ws : WsState) : Script → List Msg × List Diag
  | [] => ([], [])
  | (rd, wr) :: rest =>
    match rd with
    | RW.rdClosed => ([], mkFail id ep "read" Ec.closed)
    | RW.rdErr e => ([], mkFail id ep "read" (Ec.err e))
    | RW.rdOk m =>
      let b := m.data
      let ws1 : WsState := { ws with gotBinary := m.isBinary }
      let ws2 : WsState := { ws1 with binaryFlag := ws1.gotBinary }
      match wr with
      | Ec.ok =>
        let (ms, ds) := sync_loop id ep ws2 rest
        (⟨b, ws2.binaryFlag⟩ :: ms, ds)
      | Ec.closed => ([], mkFail id ep "write" Ec.closed)
      | Ec.err e => ([], mkFail id ep "write" (Ec.err e))

/-- `ws_sync_echo_port::do_connection`: construct the stream, run the
configuration callback (modelled separately, see `run_cb`), perform
`accept_ex` (its outcome is `acceptEc`), then run the echo loop.
On handshake failure emit `fail "accept"` and return. -/
def do_connection (id ep : Nat) (ws : WsState) (acceptEc : Ec)
    (script : Script) : List Msg × List Diag :=
  match acceptEc with
  | Ec.ok => sync_loop id ep ws script
  | e => ([], mkFail id ep "accept" e)

/-- The asynchronous echo cycle of `ws_async_echo_port::connection`
(`on_read` / `on_write`): `on_read` returns silently on `closed`, calls
`fail "on_read"` on another error, otherwise sets
`ws_.binary(ws_.got_binary())` and issues `async_write(buffer_.data())`;
`on_write` calls `fail "on_write"` on error, otherwise consumes the buffer
and issues the next read.  `buffer` is the reusable member `buffer_`. -/
def async_loop (id ep : Nat) (buffer : List Nat) (ws : WsState) :
    Script → List Msg × List Diag
  | [] => ([], [])
  | (rd, wr) :: rest =>
    match rd with
    | RW.rdClosed => ([], [])
    | RW.rdErr e => ([], mkFail id ep "on_read" (Ec.err e))
    | RW.rdOk m =>
      let buffer1 := buffer ++ m.data
      let ws1 : WsState := { ws with gotBinary := m.isBinary }
      let ws2 : WsState := { ws1 with binaryFlag := ws1.gotBinary }
      match wr with
      | Ec.ok =>
        let (ms, ds) := async_loop id ep [] ws2 rest
        (⟨buffer1, ws2.binaryFlag⟩ :: ms, ds)
      | Ec.closed => ([], mkFail id ep "on_write" Ec.closed)
      | Ec.err e => ([], mkFail id ep "on_write" (Ec.err e))

/-- `ws_async_echo_port::connection`: after construction, `run()` issues
`async_accept_ex`; `on_accept` calls `fail "async_accept"` on error and
otherwise enters the read/write cycle. -/
def async_connection (id ep : Nat) (ws : WsState) (acceptEc : Ec)
    (script : Script) : List Msg × List Diag :=
  match acceptEc with
  | Ec.ok => async_loop id ep [] ws script
  | e => ([], mkFail id ep "async_accept" e)

/-- The script induced by a client that sends the messages `msgs` in order,
each read and each write completing successfully. -/
def pureScript (msgs : List Msg) : Script :=
  msgs.map (fun m => (RW.rdOk m, Ec.ok))

theorem sync_loop_pure (id ep : Nat) (ws : WsState) (msgs : List Msg) :
    sync_loop id ep ws (pureScript msgs) = (msgs, []) := by
  induction msgs generalizing ws with
  | nil => rfl
  | cons m rest ih =>
    simp only [pureScript, List.map_cons] at ih ⊢
    simp only [sync_loop, ih]

theorem async_loop_pure (id ep : Nat) (ws : WsState) (msgs : List Msg) :
    async_loop id ep [] ws (pureScript msgs) = (msgs, []) := by
  induction msgs generalizing ws with
  | nil => rfl
  | cons m rest ih =>
    simp only [pureScript, List.map_cons] at ih ⊢
    simp only [async_loop, ih, List.nil_append]

/-- C1: on an established connection of either echo port, a client sending
the messages `msgs` in order receives exactly `msgs` back: each reply is
byte-identical to the sent message and carries the same binary/text flag,
there are exactly `msgs.length` replies, in order, and no diagnostics are
emitted. -/
theorem echo_identity (id ep : Nat) (ws : WsState) (msgs : List Msg) :
    do_connection id ep ws Ec.ok (pureScript msgs) = (msgs, []) ∧
    async_connection id ep ws Ec.ok (pureScript msgs) = (msgs, []) := by
  constructor
  · simpa [do_connection] using sync_loop_pure id ep ws msgs
  · simpa [async_connection] using async_loop_pure id ep ws msgs

/-! ## `server.hpp`: `instance_impl` and its nested `port` -/

/-- The error class of an accept completion, as distinguished by
`port::on_accept`: success, `boost::asio::error::operation_aborted`, or
any other error (carrying its numeric value). -/
inductive AcceptEc where
  | ok : AcceptEc
  | aborted : AcceptEc
  | other : Nat → AcceptEc
deriving DecidableEq, Repr

/-- The observable state of one `instance_impl::port`:
whether `acceptor_.is_open()`, how many `async_accept` operations were
issued, how many accept completions were processed, the value of the
instance's `next_id` counter, the current contents of the `sock_` / `ep_`
slots filled by the pending accept, and the record of handler invocations
`(id, socket, endpoint, handler result)` made so far. -/
structure PortSt where
  isOpen : Bool
  issued : Nat
  completed : Nat
  idCtr : Nat
  sock : Nat
  ep : Nat
  invoked : List (Nat × Nat × Nat × Bool)
deriving DecidableEq, Repr

/-- `port::on_accept(ec)`: if the acceptor is no longer open, return; if
`ec == operation_aborted`, return; if `!ec`, call
`handler_.on_accept(instance_.next_id(), std::move(sock_), ep_)`; in the
remaining cases issue `async_accept` again (re-arm).  The handler is a
parameter returning a success flag that the port records but never
inspects. -/
def on_accept (handler : Nat → Nat → Nat → Bool) (s : PortSt)
    (ec : AcceptEc) : PortSt :=
  let s0 := { s with completed := s.completed + 1 }
  if s.isOpen = false then s0
  else
    match ec with
    | AcceptEc.aborted => s0
    | AcceptEc.ok =>
      let fresh := s0.idCtr + 1
      let s1 := { s0 with
        idCtr := fresh,
        invoked := s0.invoked ++
          [(fresh, s0.sock, s0.ep, handler fresh s0.sock s0.ep)] }
      { s1 with issued := s1.issued + 1 }
    | AcceptEc.other _ => { s0 with issued := s0.issued + 1 }

/-- An event serialized on the port's strand: an accept completion (with
the error class and, on success, the socket and remote endpoint the
environment stored into `sock_` / `ep_`), or the body of `port::close()`
closing `acceptor_`. -/
inductive PortEv where
  | complete : AcceptEc → Nat → Nat → PortEv
  | closeEv : PortEv
deriving DecidableEq, Repr

/-- One strand-serialized step of a port. -/
def portStep (handler : Nat → Nat → Nat → Bool) (s : PortSt) :
    PortEv → PortSt
  | PortEv.complete ec sv ev => on_accept handler { s with sock := sv, ep := ev } ec
  | PortEv.closeEv => { s with isOpen := false }

/-- Run a port over a serialized event sequence. -/
def portRun (handler : Nat → Nat → Nat → Bool) :
    PortSt → List PortEv → PortSt
  | s, [] => s
  | s, e :: rest => portRun handler (portStep handler s e) rest

/-- Whether a strand event is the body of `port::close()`. -/
def PortEv.isClose : PortEv → Bool
  | PortEv.closeEv => true
  | _ => false

/-- Whether a strand event is a completion reporting
`operation_aborted`. -/
def PortEv.isAborted : PortEv → Bool
  | PortEv.complete AcceptEc.aborted _ _ => true
  | _ => false

/-- The state of a port right after a successful `port::open`: the
acceptor is open and exactly one `async_accept` has been issued. -/
def armedPort (idc : Nat) : PortSt :=
  { isOpen := true, issued := 1, completed := 0, idCtr := idc,
    sock := 0, ep := 0, invoked := [] }

/-- The errors the environment injects into the three fallible acceptor
calls made by `port::open`: `acceptor_.open`, `acceptor_.bind`,
`acceptor_.listen` (`none` = the call succeeds). -/
structure OpenEnv where
  openEc : Option Nat
  bindEc : Option Nat
  listenEc : Option Nat
deriving DecidableEq, Repr

/-- `port::open(ec, ep)`: open the acceptor, set `reuse_address`, bind,
listen, and on success issue the first `async_accept`; on the first
failure set `ec` and return without arming an accept. -/
def port_open (env : OpenEnv) (idc : Nat) : Except Nat PortSt :=
  match env.openEc with
  | some e => Except.error e
  | none =>
    match env.bindEc with
    | some e => Except.error e
    | none =>
      match env.listenEc with
      | some e => Except.error e
      | none => Except.ok (armedPort idc)

/-- `port::close()` as written in the source: when called from outside the
strand it posts a wrapped `close` onto the strand — and then, with no
early return, falls through and closes `acceptor_` inline regardless. -/
def port_close (inStrand : Bool) (s : PortSt) (postedCloses : Nat) :
    PortSt × Nat :=
  let posted := if inStrand = false then postedCloses + 1 else postedCloses
  ({ s with isOpen := false }, posted)

/-- The observable state of one `instance_impl`: the worker-thread count,
the registered ports (`ports_`, insertion order), and whether the
`io_service::work` keep-alive (`work_`) is held. -/
structure InstSt where
  threads : Nat
  ports : List PortSt
  work : Bool
deriving DecidableEq, Repr

/-- `instance_impl::instance_impl(n)`: initializes `work_(ios_)`, throws
`std::invalid_argument{"threads < 1"}` when `n < 1`, and otherwise starts
`n` threads each running `ios_.run()`. -/
def instance_ctor (n : Nat) : Except String InstSt :=
  if n < 1 then Except.error "threads < 1"
  else Except.ok { threads := n, ports := [], work := true }

/-- The effect of `port_base::close` on a registered port's acceptor. -/
def close_port (p : PortSt) : PortSt :=
  { p with isOpen := false }

/-- `instance_impl::stop()`: call `close()` on every registered port, then
clear `ports_`.  Returns the new instance state together with the final
states of the formerly registered ports. -/
def instance_stop (s : InstSt) : InstSt × List PortSt :=
  ({ s with ports := [] }, s.ports.map close_port)

/-- `instance_impl::~instance_impl()`: reset `work_` to `boost::none`,
call `stop()`, then join all worker threads. -/
def instance_dtor (s : InstSt) : InstSt × List PortSt :=
  instance_stop { s with work := false }

/-- `instance_impl::make_port(ec, ep, args...)`: construct the port, call
`open`; on error set `ec` and return with `ports_` untouched; on success
append the port to `ports_`. -/
def make_port (env : OpenEnv) (idc : Nat) (s : InstSt) :
    Option Nat × InstSt :=
  match port_open env idc with
  | Except.error e => (some e, s)
  | Except.ok p => (none, { s with ports := s.ports ++ [p] })

/-- `instance_impl::next_id()`: `return ++id_` on the shared
`std::atomic<std::size_t>` counter, which wraps at `2 ^ 64`. -/
def next_id (s : Nat) : Nat × Nat :=
  ((s + 1) % 2 ^ 64, (s + 1) % 2 ^ 64)

/-- `ws_async_echo_port::operator()`: the `connection` constructor stores
the id passed in by `port::on_accept` as its `id_` member. -/
def async_port_assign (passedId : Nat) : Nat :=
  passedId

/-- `ws_sync_echo_port::operator()`: the detached thread's `lambda` is
constructed as `lambda{*this, ep, std::move(sock)}` — the `id` parameter
received from `port::on_accept` is never passed on; the lambda's `id`
field is initialized from `++n` on its own function-local
`static std::atomic<std::size_t> n{0}` (also a wrapping `size_t`).
Returns the id the connection actually carries and the new value of
`n`. -/
def sync_port_assign (_passedId : Nat) (nCtr : Nat) : Nat × Nat :=
  ((nCtr + 1) % 2 ^ 64, (nCtr + 1) % 2 ^ 64)

/-- Which port handler variant an accepted connection went to. -/
inductive Variant where
  | async : Variant
  | sync : Variant
deriving DecidableEq, Repr

/-- The ids actually carried by successive connections of one
`instance_impl` when accepts arrive in the given order of variants:
`port::on_accept` draws `instance_.next_id()` for every accept; the
async port's connection stores that id, while the sync port's lambda
discards it and draws from the sync port's own static counter `n`.
Arguments: the instance's `id_` counter and the sync port's `n`
counter. -/
def carriedIds : List Variant → Nat → Nat → List Nat
  | [], _, _ => []
  | Variant.async :: rest, instCtr, syncCtr =>
    let r := next_id instCtr
    async_port_assign r.1 :: carriedIds rest r.2 syncCtr
  | Variant.sync :: rest, instCtr, syncCtr =>
    let r := next_id instCtr
    let a := sync_port_assign r.1 syncCtr
    a.1 :: carriedIds rest r.2 a.2

/-! ## Helper lemmas about the port accept loop -/

theorem portStep_closed (handler : Nat → Nat → Nat → Bool) (s : PortSt)
    (hs : s.isOpen = false) (e : PortEv) :
    (portStep handler s e).issued = s.issued ∧
    (portStep handler s e).isOpen = false := by
  cases e with
  | complete ec sv ev => simp [portStep, on_accept, hs]
  | closeEv => simp [portStep]

theorem portRun_closed (handler : Nat → Nat → Nat → Bool)
    (evs : List PortEv) :
    ∀ s : PortSt, s.isOpen = false →
      (portRun handler s evs).issued = s.issued ∧
      (portRun handler s evs).isOpen = false := by
  induction evs with
  | nil => intro s hs; exact ⟨rfl, hs⟩
  | cons e rest ih =>
    intro s hs
    have h1 := portStep_closed handler s hs e
    have h2 := ih (portStep handler s e) h1.2
    exact ⟨h2.1.trans h1.1, h2.2⟩

theorem portStep_open_rearm (handler : Nat → Nat → Nat → Bool)
    (s : PortSt) (hs : s.isOpen = true) (ec : AcceptEc) (sv ev : Nat)
    (hab : ec ≠ AcceptEc.aborted) :
    (portStep handler s (PortEv.complete ec sv ev)).issued = s.issued + 1 ∧
    (portStep handler s (PortEv.complete ec sv ev)).completed
      = s.completed + 1 ∧
    (portStep handler s (PortEv.complete ec sv ev)).isOpen = true := by
  cases ec with
  | ok => simp [portStep, on_accept, hs]
  | aborted => exact absurd rfl hab
  | other e => simp [portStep, on_accept, hs]

theorem portRun_rearm (handler : Nat → Nat → Nat → Bool)
    (evs : List PortEv) :
    ∀ s : PortSt,
      (∀ e ∈ evs, e.isClose = false ∧ e.isAborted = false) →
      s.isOpen = true → s.issued = s.completed + 1 →
      (portRun handler s evs).issued
        = (portRun handler s evs).completed + 1 := by
  induction evs with
  | nil => intro s _ _ hinv; exact hinv
  | cons e rest ih =>
    intro s hno hs hinv
    have he := hno e (List.mem_cons_self e rest)
    have hrest : ∀ e ∈ rest, e.isClose = false ∧ e.isAborted = false :=
      fun e h => hno e (List.mem_cons_of_mem _ h)
    cases e with
    | closeEv => simp [PortEv.isClose] at he
    | complete ec sv ev =>
      have hab : ec ≠ AcceptEc.aborted := by
        intro h
        subst h
        simp [PortEv.isAborted] at he
      have hstep := portStep_open_rearm handler s hs ec sv ev hab
      have := ih (portStep handler s (PortEv.complete ec sv ev)) hrest
        hstep.2.2 (by rw [hstep.1, hstep.2.1, hinv])
      exact this

/-! ## Claim theorems for `server.hpp` -/

/-- C2: refuted by the cited code.  On one fresh `instance_impl` (shared
counter at 0, sync port's own counter `n` at 0), an accept on the async
port followed by an accept on the sync port yields carried ids `[1, 1]`:
`port::on_accept` hands out `next_id()` values 1 and 2, the async
connection stores 1, but `ws_sync_echo_port::operator()` discards the 2
and takes `++n = 1` from its own zero-based static counter — so the ids
carried across the two handler variants are neither pairwise distinct
nor strictly increasing. -/
theorem connection_ids_collide_across_variants :
    carriedIds [Variant.async, Variant.sync] 0 0 = [1, 1] ∧
    ¬ (carriedIds [Variant.async, Variant.sync] 0 0).Nodup ∧
    ¬ (carriedIds [Variant.async, Variant.sync] 0 0).Pairwise (· < ·) := by
  decide

/-- C3: starting from a successful `port::open` (one accept armed), as
long as no `close()` body and no `operation_aborted` completion has run on
the strand, the number of accepts issued stays exactly one more than the
number of completions processed; after the `close()` body runs, no
further accepts are ever issued; and an `operation_aborted` completion
never re-arms. -/
theorem accept_rearm_invariant (handler : Nat → Nat → Nat → Bool)
    (idc : Nat) (evs : List PortEv)
    (hno : ∀ e ∈ evs, e.isClose = false ∧ e.isAborted = false) :
    ((portRun handler (armedPort idc) evs).issued
      = (portRun handler (armedPort idc) evs).completed + 1) ∧
    (∀ (s : PortSt) (evs2 : List PortEv),
      (portRun handler (portStep handler s PortEv.closeEv) evs2).issued
        = (portStep handler s PortEv.closeEv).issued) ∧
    (∀ (s : PortSt) (sv ev : Nat),
      (portStep handler s
        (PortEv.complete AcceptEc.aborted sv ev)).issued = s.issued) := by
  refine ⟨portRun_rearm handler evs (armedPort idc) hno rfl rfl, ?_, ?_⟩
  · intro s evs2
    exact (portRun_closed handler evs2
      (portStep handler s PortEv.closeEv) rfl).1
  · intro s sv ev
    by_cases h : s.isOpen = false
    · exact (portStep_closed handler s h _).1
    · simp [portStep, on_accept, h]

theorem accept_rearm_invariant_witness :
    (portRun (fun _ _ _ => true) (armedPort 0)
      [PortEv.complete AcceptEc.ok 5 7,
       PortEv.complete (AcceptEc.other 3) 0 0]).issued
      = (portRun (fun _ _ _ => true) (armedPort 0)
          [PortEv.complete AcceptEc.ok 5 7,
           PortEv.complete (AcceptEc.other 3) 0 0]).completed + 1 :=
  (accept_rearm_invariant (fun _ _ _ => true) 0
    [PortEv.complete AcceptEc.ok 5 7,
     PortEv.complete (AcceptEc.other 3) 0 0] (by decide)).1

/-- C5: the claim is contradicted by the source.  `port::close()` lacks a
return after posting onto the strand: invoked off-strand on an open
acceptor it closes the acceptor inline (leaving the socket state changed
by the off-context caller) and additionally marshals one more `close`
onto the strand. -/
theorem port_close_offstrand_closes_inline :
    (port_close false (armedPort 0) 0).1.isOpen = false ∧
    (port_close false (armedPort 0) 0).2 = 1 := by
  decide

/-- C6: `make_port` is atomic on failure: whichever of `open`, `bind`,
`listen` fails first, its specific error code is returned and `ports_` is
left unchanged; when all three succeed, the new port is appended at the
end of `ports_`, its acceptor open and its first accept armed. -/
theorem make_port_atomic (env : OpenEnv) (idc : Nat) (s : InstSt) :
    (∀ e, env.openEc = some e → make_port env idc s = (some e, s)) ∧
    (∀ e, env.openEc = none → env.bindEc = some e →
      make_port env idc s = (some e, s)) ∧
    (∀ e, env.openEc = none → env.bindEc = none →
      env.listenEc = some e → make_port env idc s = (some e, s)) ∧
    (env.openEc = none → env.bindEc = none → env.listenEc = none →
      make_port env idc s
        = (none, { s with ports := s.ports ++ [armedPort idc] }) ∧
      (armedPort idc).isOpen = true ∧ (armedPort idc).issued = 1) := by
  refine ⟨?_, ?_, ?_, ?_⟩
  · intro e h; simp [make_port, port_open, h]
  · intro e h1 h2; simp [make_port, port_open, h1, h2]
  · intro e h1 h2 h3; simp [make_port, port_open, h1, h2, h3]
  · intro h1 h2 h3
    refine ⟨?_, rfl, rfl⟩
    simp [make_port, port_open, h1, h2, h3]

theorem make_port_atomic_witness :
    make_port ⟨none, some 98, none⟩ 0 ⟨1, [], true⟩
      = (some 98, ⟨1, [], true⟩) ∧
    make_port ⟨none, none, none⟩ 0 ⟨1, [], true⟩
      = (none, ⟨1, [armedPort 0], true⟩) :=
  ⟨(make_port_atomic ⟨none, some 98, none⟩ 0 ⟨1, [], true⟩).2.1 98 rfl rfl,
   ((make_port_atomic ⟨none, none, none⟩ 0 ⟨1, [], true⟩).2.2.2
     rfl rfl rfl).1⟩

/-- C7: an accept completion on an open port that is not
`operation_aborted`: with any non-aborted error the handler is not
invoked yet a new accept is issued; on success the handler is invoked
exactly once with the fresh id `idCtr + 1`, the transferred socket and
the remote endpoint, the fresh id is new whenever all previously assigned
ids are bounded by the counter, and a new accept is issued no matter what
the handler invocation returned (the issue count does not depend on the
handler at all). -/
theorem on_accept_dispatch (handler : Nat → Nat → Nat → Bool)
    (s : PortSt) (hopen : s.isOpen = true) :
    (∀ e, (on_accept handler s (AcceptEc.other e)).invoked = s.invoked ∧
      (on_accept handler s (AcceptEc.other e)).issued = s.issued + 1) ∧
    ((on_accept handler s AcceptEc.ok).invoked
      = s.invoked ++ [(s.idCtr + 1, s.sock, s.ep,
          handler (s.idCtr + 1) s.sock s.ep)] ∧
     (on_accept handler s AcceptEc.ok).issued = s.issued + 1) ∧
    ((∀ r ∈ s.invoked, r.1 ≤ s.idCtr) →
      ¬ (s.idCtr + 1) ∈ s.invoked.map (fun r => r.1)) ∧
    (∀ handler2 : Nat → Nat → Nat → Bool,
      (on_accept handler s AcceptEc.ok).issued
        = (on_accept handler2 s AcceptEc.ok).issued) := by
  refine ⟨?_, ?_, ?_, ?_⟩
  · intro e; constructor <;> simp [on_accept, hopen]
  · constructor <;> simp [on_accept, hopen]
  · intro hb hmem
    rcases List.mem_map.mp hmem with ⟨r, hr, hid⟩
    have := hb r hr
    omega
  · intro handler2; simp [on_accept, hopen]

theorem on_accept_dispatch_witness :
    (on_accept (fun _ _ _ => false) (armedPort 0) AcceptEc.ok).invoked
      = [(1, 0, 0, false)] ∧
    (on_accept (fun _ _ _ => false) (armedPort 0) AcceptEc.ok).issued = 2 :=
  (on_accept_dispatch (fun _ _ _ => false) (armedPort 0) rfl).2.1

/-- C9: construction of `instance_impl` fails (with
`invalid_argument{"threads < 1"}`) exactly when the requested worker
count is below one; for any count `n ≥ 1` it succeeds with `n` worker
threads running `ios_.run()` and the `io_service::work` keep-alive
held. -/
theorem instance_ctor_spec (n : Nat) :
    ((∃ st, instance_ctor n = Except.ok st) ↔ 1 ≤ n) ∧
    (n < 1 → instance_ctor n = Except.error "threads < 1") ∧
    (1 ≤ n → instance_ctor n
      = Except.ok { threads := n, ports := [], work := true }) := by
  refine ⟨⟨?_, ?_⟩, ?_, ?_⟩
  · rintro ⟨st, hst⟩
    by_contra h
    have hn : n < 1 := by omega
    simp [instance_ctor, hn] at hst
  · intro h
    have hn : ¬ n < 1 := by omega
    exact ⟨{ threads := n, ports := [], work := true },
      by simp [instance_ctor, hn]⟩
  · intro h; simp [instance_ctor, h]
  · intro h
    have hn : ¬ n < 1 := by omega
    simp [instance_ctor, hn]

theorem instance_ctor_spec_witness :
    instance_ctor 0 = Except.error "threads < 1" ∧
    instance_ctor 4
      = Except.ok { threads := 4, ports := [], work := true } :=
  ⟨(instance_ctor_spec 0).2.1 (by decide),
   (instance_ctor_spec 4).2.2 (by decide)⟩

/-- C4 counterexample: `instance_impl::stop()` does not release the
`io_service::work` keep-alive — on an instance holding the keep-alive,
the state after `stop()` still holds it, contradicting the claim that
`stop()` releases it. -/
theorem stop_does_not_release_work :
    ¬ (instance_stop { threads := 1, ports := [], work := true }).1.work
      = false := by
  decide

/-- C4 (amended): `stop()` runs `close()` on every registered port and
clears the registry, but leaves the keep-alive reference untouched; the
keep-alive is released by the destructor, which resets `work_` before
invoking `stop()` and joining the workers. -/
theorem stop_spec (s : InstSt) :
    ((instance_stop s).1.ports = []) ∧
    ((instance_stop s).2.length = s.ports.length) ∧
    (∀ p ∈ (instance_stop s).2, p.isOpen = false) ∧
    ((instance_stop s).1.work = s.work) ∧
    ((instance_dtor s).1.work = false) := by
  refine ⟨rfl, ?_, ?_, rfl, rfl⟩
  · simp [instance_stop]
  · intro p hp
    rcases List.mem_map.mp hp with ⟨q, _, hq⟩
    rw [← hq]
    rfl

theorem stop_spec_witness :
    ∀ p ∈ (instance_stop
      { threads := 1, ports := [armedPort 0], work := true }).2,
      p.isOpen = false :=
  (stop_spec { threads := 1, ports := [armedPort 0], work := true }).2.2.1

/-! ## C8: error diagnostics -/

/-- Specification-side characterisation of a script on which the echo
loop stops at an operation failing with an error other than `closed`. -/
def loopFails : Script → Bool
  | [] => false
  | (rd, wr) :: rest =>
    match rd with
    | RW.rdClosed => false
    | RW.rdErr _ => true
    | RW.rdOk _ =>
      match wr with
      | Ec.ok => loopFails rest
      | Ec.closed => false
      | Ec.err _ => true

/-- Specification-side characterisation of a connection script on which
some executed handshake, read or write fails with an error other than
`closed`. -/
def connFails (acceptEc : Ec) (script : Script) : Bool :=
  match acceptEc with
  | Ec.ok => loopFails script
  | Ec.closed => false
  | Ec.err _ => true

theorem sync_loop_fails_iff (id ep : Nat) (script : Script) :
    ∀ ws : WsState,
      ((sync_loop id ep ws script).2 ≠ [] ↔ loopFails script = true) := by
  induction script with
  | nil => intro ws; simp [sync_loop, loopFails]
  | cons it rest ih =>
    intro ws
    obtain ⟨rd, wr⟩ := it
    cases rd with
    | rdClosed => simp [sync_loop, mkFail, loopFails]
    | rdErr e => simp [sync_loop, mkFail, loopFails]
    | rdOk m =>
      cases wr with
      | ok => simpa [sync_loop, loopFails] using ih _
      | closed => simp [sync_loop, mkFail, loopFails]
      | err e => simp [sync_loop, mkFail, loopFails]

theorem async_loop_fails_iff (id ep : Nat) (script : Script) :
    ∀ (buffer : List Nat) (ws : WsState),
      ((async_loop id ep buffer ws script).2 ≠ []
        ↔ loopFails script = true) := by
  induction script with
  | nil => intro buffer ws; simp [async_loop, loopFails]
  | cons it rest ih =>
    intro buffer ws
    obtain ⟨rd, wr⟩ := it
    cases rd with
    | rdClosed => simp [async_loop, loopFails]
    | rdErr e => simp [async_loop, mkFail, loopFails]
    | rdOk m =>
      cases wr with
      | ok => simpa [async_loop, loopFails] using ih _ _
      | closed => simp [async_loop, mkFail, loopFails]
      | err e => simp [async_loop, mkFail, loopFails]

theorem sync_loop_diag_shape (id ep : Nat) (script : Script) :
    ∀ ws : WsState, ∀ d ∈ (sync_loop id ep ws script).2,
      d.id = id ∧ d.ep = ep ∧ (∃ e, d.ec = Ec.err e) ∧
      (d.what = "read" ∨ d.what = "write") := by
  induction script with
  | nil => intro ws d hd; simp [sync_loop] at hd
  | cons it rest ih =>
    intro ws d hd
    obtain ⟨rd, wr⟩ := it
    cases rd with
    | rdClosed => simp [sync_loop, mkFail] at hd
    | rdErr e =>
      simp [sync_loop, mkFail] at hd
      subst hd
      exact ⟨rfl, rfl, ⟨e, rfl⟩, Or.inl rfl⟩
    | rdOk m =>
      cases wr with
      | ok =>
        simp only [sync_loop] at hd
        exact ih _ d hd
      | closed => simp [sync_loop, mkFail] at hd
      | err e =>
        simp [sync_loop, mkFail] at hd
        subst hd
        exact ⟨rfl, rfl, ⟨e, rfl⟩, Or.inr rfl⟩

theorem async_loop_diag_shape (id ep : Nat) (script : Script) :
    ∀ (buffer : List Nat) (ws : WsState),
      ∀ d ∈ (async_loop id ep buffer ws script).2,
        d.id = id ∧ d.ep = ep ∧ (∃ e, d.ec = Ec.err e) ∧
        (d.what = "on_read" ∨ d.what = "on_write") := by
  induction script with
  | nil => intro buffer ws d hd; simp [async_loop] at hd
  | cons it rest ih =>
    intro buffer ws d hd
    obtain ⟨rd, wr⟩ := it
    cases rd with
    | rdClosed => simp [async_loop] at hd
    | rdErr e =>
      simp [async_loop, mkFail] at hd
      subst hd
      exact ⟨rfl, rfl, ⟨e, rfl⟩, Or.inl rfl⟩
    | rdOk m =>
      cases wr with
      | ok =>
        simp only [async_loop] at hd
        exact ih _ _ d hd
      | closed => simp [async_loop, mkFail] at hd
      | err e =>
        simp [async_loop, mkFail] at hd
        subst hd
        exact ⟨rfl, rfl, ⟨e, rfl⟩, Or.inr rfl⟩

/-- C8: in either handler variant a diagnostic is emitted iff some
executed handshake, read or write operation failed with an error other
than the protocol's `closed` condition (so a graceful peer close emits
nothing), and every emitted diagnostic carries the connection id, the
remote endpoint, the failing operation's name and a non-`closed`
error. -/
theorem error_diagnostics_iff (id ep : Nat) (ws : WsState) (aec : Ec)
    (script : Script) :
    ((do_connection id ep ws aec script).2 ≠ []
      ↔ connFails aec script = true) ∧
    ((async_connection id ep ws aec script).2 ≠ []
      ↔ connFails aec script = true) ∧
    (∀ d ∈ (do_connection id ep ws aec script).2,
      d.id = id ∧ d.ep = ep ∧ (∃ e, d.ec = Ec.err e) ∧
      (d.what = "accept" ∨ d.what = "read" ∨ d.what = "write")) ∧
    (∀ d ∈ (async_connection id ep ws aec script).2,
      d.id = id ∧ d.ep = ep ∧ (∃ e, d.ec = Ec.err e) ∧
      (d.what = "async_accept" ∨ d.what = "on_read" ∨
        d.what = "on_write")) := by
  cases aec with
  | ok =>
    refine ⟨?_, ?_, ?_, ?_⟩
    · simpa [do_connection, connFails] using sync_loop_fails_iff id ep script ws
    · simpa [async_connection, connFails] using
        async_loop_fails_iff id ep script [] ws
    · intro d hd
      simp only [do_connection] at hd
      have := sync_loop_diag_shape id ep script ws d hd
      exact ⟨this.1, this.2.1, this.2.2.1, Or.inr this.2.2.2⟩
    · intro d hd
      simp only [async_connection] at hd
      have := async_loop_diag_shape id ep script [] ws d hd
      exact ⟨this.1, this.2.1, this.2.2.1, Or.inr this.2.2.2⟩
  | closed =>
    refine ⟨?_, ?_, ?_, ?_⟩
    · simp [do_connection, connFails, mkFail]
    · simp [async_connection, connFails, mkFail]
    · intro d hd; simp [do_connection, mkFail] at hd
    · intro d hd; simp [async_connection, mkFail] at hd
  | err e =>
    refine ⟨?_, ?_, ?_, ?_⟩
    · simp [do_connection, connFails, mkFail]
    · simp [async_connection, connFails, mkFail]
    · intro d hd
      simp [do_connection, mkFail] at hd
      subst hd
      exact ⟨rfl, rfl, ⟨e, rfl⟩, Or.inl rfl⟩
    · intro d hd
      simp [async_connection, mkFail] at hd
      subst hd
      exact ⟨rfl, rfl, ⟨e, rfl⟩, Or.inl rfl⟩

theorem error_diagnostics_iff_witness :
    ((do_connection 7 9 { gotBinary := false, binaryFlag := false } Ec.ok
        [(RW.rdErr 5, Ec.ok)]).2 ≠ []) ∧
    ((do_connection 7 9 { gotBinary := false, binaryFlag := false } Ec.ok
        [(RW.rdClosed, Ec.ok)]).2 = []) ∧
    (Diag.id ⟨7, 9, "read", Ec.err 5⟩ = 7 ∧
      Diag.ep ⟨7, 9, "read", Ec.err 5⟩ = 9) :=
  ⟨(error_diagnostics_iff 7 9 { gotBinary := false, binaryFlag := false }
      Ec.ok [(RW.rdErr 5, Ec.ok)]).1.mpr (by decide),
   by
    have := (error_diagnostics_iff 7 9
      { gotBinary := false, binaryFlag := false } Ec.ok
      [(RW.rdClosed, Ec.ok)]).1
    by_contra h
    exact absurd (this.mp h) (by decide),
   by
    have := (error_diagnostics_iff 7 9
      { gotBinary := false, binaryFlag := false } Ec.ok
      [(RW.rdErr 5, Ec.ok)]).2.2.1 ⟨7, 9, "read", Ec.err 5⟩ (by decide)
    exact ⟨this.1, this.2.1⟩⟩

/-! ## C10: the stream-configuration callback -/

/-- A step observable during connection setup. -/
inductive SetupStep where
  | cbCall : SetupStep
  | handshake : SetupStep
deriving DecidableEq, Repr

/-- Invoking the `std::function` member `cb_` on the stream: an empty
function throws `std::bad_function_call`; otherwise the stored callable
configures the stream. -/
def run_cb (cb : Option (Nat → Nat)) (ws : Nat) : Except Unit Nat :=
  match cb with
  | none => Except.error ()
  | some f => Except.ok (f ws)

/-- `ws_async_echo_port::operator()`: the `connection` constructor runs
`handler_.cb_(ws_)` before anything else; only if that returns does
`run()` issue `async_accept_ex`.  Result: the setup steps performed in
order, and the stream state on which the handshake was started (if it
was). -/
def ws_async_handle (cb : Option (Nat → Nat)) (ws0 : Nat) :
    List SetupStep × Option Nat :=
  match run_cb cb ws0 with
  | Except.error _ => ([SetupStep.cbCall], none)
  | Except.ok ws1 => ([SetupStep.cbCall, SetupStep.handshake], some ws1)

/-- `ws_sync_echo_port::do_connection`: constructs the stream, runs
`cb_(ws)`, and only then calls `accept_ex`. -/
def ws_sync_handle (cb : Option (Nat → Nat)) (ws0 : Nat) :
    List SetupStep × Option Nat :=
  match run_cb cb ws0 with
  | Except.error _ => ([SetupStep.cbCall], none)
  | Except.ok ws1 => ([SetupStep.cbCall, SetupStep.handshake], some ws1)

theorem cb_before_handshake_aux (l1 l2 : List SetupStep)
    (h : l1 ++ SetupStep.handshake :: l2
      = [SetupStep.cbCall, SetupStep.handshake]) :
    SetupStep.cbCall ∈ l1 := by
  cases l1 with
  | nil => simp at h
  | cons a t =>
    simp only [List.cons_append, List.cons.injEq] at h
    rw [h.1]
    exact List.mem_cons_self _ _

/-- C10: in both port handlers the stream-configuration callback is
invoked exactly once, strictly before the handshake (any occurrence of
the handshake step has the callback invocation before it); the handshake
is attempted on the configured stream; and when the callback is an empty
function the setup stops at the invocation — no handshake step ever
happens. -/
theorem stream_cb_mandatory (cb : Option (Nat → Nat)) (ws0 : Nat) :
    ((ws_async_handle cb ws0).1.count SetupStep.cbCall = 1 ∧
     (ws_sync_handle cb ws0).1.count SetupStep.cbCall = 1) ∧
    (∀ l1 l2, (ws_async_handle cb ws0).1
        = l1 ++ SetupStep.handshake :: l2 → SetupStep.cbCall ∈ l1) ∧
    (∀ l1 l2, (ws_sync_handle cb ws0).1
        = l1 ++ SetupStep.handshake :: l2 → SetupStep.cbCall ∈ l1) ∧
    (cb = none →
      ws_async_handle cb ws0 = ([SetupStep.cbCall], none) ∧
      ws_sync_handle cb ws0 = ([SetupStep.cbCall], none) ∧
      ¬ SetupStep.handshake ∈ (ws_async_handle cb ws0).1 ∧
      ¬ SetupStep.handshake ∈ (ws_sync_handle cb ws0).1) ∧
    (∀ f, cb = some f →
      (ws_async_handle cb ws0).2 = some (f ws0) ∧
      (ws_sync_handle cb ws0).2 = some (f ws0)) := by
  cases cb with
  | none =>
    refine ⟨⟨rfl, rfl⟩, ?_, ?_, ?_, ?_⟩
    · intro l1 l2 h
      cases l1 with
      | nil => simp [ws_async_handle, run_cb] at h
      | cons a t => simp [ws_async_handle, run_cb] at h
    · intro l1 l2 h
      cases l1 with
      | nil => simp [ws_sync_handle, run_cb] at h
      | cons a t => simp [ws_sync_handle, run_cb] at h
    · intro _
      refine ⟨rfl, rfl, ?_, ?_⟩
      · simp [ws_async_handle, run_cb]
      · simp [ws_sync_handle, run_cb]
    · intro f hf; cases hf
  | some f =>
    refine ⟨⟨rfl, rfl⟩, ?_, ?_, ?_, ?_⟩
    · intro l1 l2 h
      exact cb_before_handshake_aux l1 l2 h.symm
    · intro l1 l2 h
      exact cb_before_handshake_aux l1 l2 h.symm
    · intro h; cases h
    · intro g hg
      cases hg
      exact ⟨rfl, rfl⟩

theorem stream_cb_mandatory_witness :
    (ws_async_handle none 0 = ([SetupStep.cbCall], none) ∧
     ws_sync_handle none 0 = ([SetupStep.cbCall], none) ∧
     ¬ SetupStep.handshake ∈ (ws_async_handle none 0).1 ∧
     ¬ SetupStep.handshake ∈ (ws_sync_handle none 0).1) ∧
    (ws_async_handle (some (fun x => x + 2)) 3).2 = some 5 :=
  ⟨(stream_cb_mandatory none 0).2.2.2.1 rfl,
   ((stream_cb_mandatory (some (fun x => x + 2)) 3).2.2.2.2
     (fun x => x + 2) rfl).1⟩

end BeastServer
